import Mathlib

/-!
Shallow embedding of the linkedinscraper ingestion pipeline
(`main.py`, `scrapers/base_scraper.py`, `scrapers/linkedin_scraper.py`).

External library calls (`requests.get`, `langdetect.detect`,
`datetime.strptime`, BeautifulSoup parsing) are modelled as explicit
function parameters (oracles); everything else is translated directly
from the repository source.  Timestamps are modelled as integer seconds;
a calendar date is modelled by its day number, so that
`datetime.combine(d, time())` becomes `d * 86400`.
-/

namespace LinkedinScraper

/-- `str.lower` character by character (the kernel-reducible equivalent
of `String.toLower`). -/
def strToLower (s : String) : String := ⟨s.data.map Char.toLower⟩

/-- Python's `needle.lower() in hay.lower()` (case-insensitive substring). -/
def containsSub (hay needle : String) : Bool :=
  decide ((strToLower needle).data <:+: (strToLower hay).data)

/-- The normalized job dictionary shape produced by
`BaseScraper.normalize_job` and consumed by the `main.py` pipeline. -/
structure Job where
  title : String
  company : String
  location : String
  date : String
  job_url : String
  job_description : String
  source : String
  applied : Bool
  hidden : Bool
  interview : Bool
  rejected : Bool
deriving DecidableEq, Repr

/-- The filter-word configuration consumed by `remove_irrelevant_jobs`. -/
structure Config where
  desc_words : List String
  title_exclude : List String
  title_include : List String
  languages : List String
  company_exclude : List String
deriving DecidableEq, Repr

/-- `main.remove_irrelevant_jobs` (main.py lines 46-54).  The `detect`
parameter models `safe_detect` (the `langdetect` call with its
exception handler already applied, so it is a total function). -/
def remove_irrelevant_jobs (detect : String → String) (joblist : List Job)
    (config : Config) : List Job :=
  let l1 := joblist.filter fun job =>
    !(config.desc_words.any fun word => containsSub job.job_description word)
  let l2 := if config.title_exclude.length > 0 then
      l1.filter fun job =>
        !(config.title_exclude.any fun word => containsSub job.title word)
    else l1
  let l3 := if config.title_include.length > 0 then
      l2.filter fun job =>
        config.title_include.any fun word => containsSub job.title word
    else l2
  let l4 := if config.languages.length > 0 then
      l3.filter fun job => config.languages.contains (detect job.job_description)
    else l3
  let l5 := if config.company_exclude.length > 0 then
      l4.filter fun job =>
        !(config.company_exclude.any fun word => containsSub job.company word)
    else l4
  l5

/-- The conjunction of the five stage predicates of
`remove_irrelevant_jobs`, with each guarded stage skipped when its
word list is empty, exactly as in the source. -/
def passesAllStages (detect : String → String) (config : Config) (job : Job) : Bool :=
  (!(config.desc_words.any fun word => containsSub job.job_description word))
  && (if config.title_exclude.length > 0 then
        !(config.title_exclude.any fun word => containsSub job.title word)
      else true)
  && (if config.title_include.length > 0 then
        config.title_include.any fun word => containsSub job.title word
      else true)
  && (if config.languages.length > 0 then
        config.languages.contains (detect job.job_description)
      else true)
  && (if config.company_exclude.length > 0 then
        !(config.company_exclude.any fun word => containsSub job.company word)
      else true)

theorem mem_remove_irrelevant_jobs (detect : String → String) (joblist : List Job)
    (config : Config) (job : Job) :
    job ∈ remove_irrelevant_jobs detect joblist config ↔
      job ∈ joblist ∧ passesAllStages detect config job = true := by
  unfold remove_irrelevant_jobs passesAllStages
  split_ifs <;>
    simp [List.mem_filter, Bool.and_assoc] <;> tauto

/-- `jobs_to_add` as computed at main.py line 467: the output of the
final `remove_irrelevant_jobs` pass over the processed batch. -/
def jobs_to_add (detect : String → String) (job_list : List Job)
    (config : Config) : List Job :=
  remove_irrelevant_jobs detect job_list config

/-- `filtered_list` as computed at main.py line 478: the processed
jobs that are not in `jobs_to_add`; this list is what gets written to
the rejected (`filtered_jobs`) table. -/
def filtered_list (detect : String → String) (job_list : List Job)
    (config : Config) : List Job :=
  job_list.filter fun job => !((jobs_to_add detect job_list config).contains job)

/-! ### Intra-batch deduplication (`main.remove_duplicates`, lines 56-60) -/

/-- The `(title, company)` key used by `remove_duplicates`. -/
def jobKey (j : Job) : String × String := (j.title, j.company)

/-- Python's lexicographic comparison of the tuples
`(x['title'], x['company'])` used by `joblist.sort`. -/
def keyLe (a b : Job) : Bool :=
  decide (a.title < b.title) || (decide (a.title = b.title) && decide (a.company ≤ b.company))

/-- Lexicographic order on the keys, as a proposition. -/
def kle (p q : String × String) : Prop :=
  p.1 < q.1 ∨ (p.1 = q.1 ∧ p.2 ≤ q.2)

theorem keyLe_iff_kle (a b : Job) : keyLe a b = true ↔ kle (jobKey a) (jobKey b) := by
  simp [keyLe, kle, jobKey]

theorem kle_refl (p : String × String) : kle p p := Or.inr ⟨rfl, le_refl _⟩

theorem kle_trans {p q r : String × String} (h1 : kle p q) (h2 : kle q r) : kle p r := by
  rcases h1 with h1 | ⟨e1, l1⟩ <;> rcases h2 with h2 | ⟨e2, l2⟩
  · exact Or.inl (lt_trans h1 h2)
  · exact Or.inl (e2 ▸ h1)
  · exact Or.inl (e1 ▸ h2)
  · exact Or.inr ⟨e1.trans e2, le_trans l1 l2⟩

theorem kle_total (p q : String × String) : kle p q ∨ kle q p := by
  rcases lt_trichotomy p.1 q.1 with h | h | h
  · exact Or.inl (Or.inl h)
  · rcases le_total p.2 q.2 with h2 | h2
    · exact Or.inl (Or.inr ⟨h, h2⟩)
    · exact Or.inr (Or.inr ⟨h.symm, h2⟩)
  · exact Or.inr (Or.inl h)

theorem kle_antisymm {p q : String × String} (h1 : kle p q) (h2 : kle q p) : p = q := by
  rcases h1 with h1 | ⟨e1, l1⟩
  · rcases h2 with h2 | ⟨e2, l2⟩
    · exact absurd h2 (lt_asymm h1)
    · exact absurd h1 (e2 ▸ lt_irrefl _)
  · rcases h2 with h2 | ⟨e2, l2⟩
    · exact absurd h2 (e1 ▸ lt_irrefl _)
    · exact Prod.ext e1 (le_antisymm l1 l2)

theorem keyLe_trans (a b c : Job) : keyLe a b → keyLe b c → keyLe a c := by
  intro h1 h2
  rw [keyLe_iff_kle] at h1 h2 ⊢
  exact kle_trans h1 h2

theorem keyLe_total (a b : Job) : keyLe a b || keyLe b a := by
  rcases kle_total (jobKey a) (jobKey b) with h | h
  · simp [(keyLe_iff_kle a b).mpr h]
  · simp [(keyLe_iff_kle b a).mpr h]

/-- One step of `itertools.groupby`'s "first element of each run of
equal keys": an element is kept iff its key differs from the key of
the head of the run currently being skipped. -/
def collapseAux : (String × String) → List Job → List Job
  | _, [] => []
  | prevKey, a :: rest =>
    if jobKey a = prevKey then collapseAux prevKey rest
    else a :: collapseAux (jobKey a) rest

/-- `[next(g) for k, g in groupby(joblist, key=...)]`: the first
element of each maximal run of consecutive equal-key elements. -/
def groupbyFirst : List Job → List Job
  | [] => []
  | a :: rest => a :: collapseAux (jobKey a) rest

/-- `main.remove_duplicates` (main.py lines 56-60): sort by
`(title, company)` and keep the first element of each group of
consecutive equal-key elements.  (The `config` argument of the Python
function is unused by its body and omitted.) -/
def remove_duplicates (joblist : List Job) : List Job :=
  groupbyFirst (joblist.mergeSort keyLe)

theorem collapseAux_subset (k : String × String) (l : List Job) :
    ∀ j ∈ collapseAux k l, j ∈ l := by
  induction l generalizing k with
  | nil => simp [collapseAux]
  | cons a rest ih =>
    intro j hj
    unfold collapseAux at hj
    split at hj
    · exact List.mem_cons_of_mem a (ih k j hj)
    · rcases List.mem_cons.mp hj with h | h
      · exact h ▸ List.mem_cons_self a rest
      · exact List.mem_cons_of_mem a (ih (jobKey a) j h)

theorem collapseAux_keys_cover (k : String × String) (l : List Job) :
    ∀ j ∈ l, jobKey j = k ∨ jobKey j ∈ (collapseAux k l).map jobKey := by
  induction l generalizing k with
  | nil => simp
  | cons a rest ih =>
    intro j hj
    unfold collapseAux
    split
    · rename_i heq
      rcases List.mem_cons.mp hj with h | h
      · exact Or.inl (h ▸ heq)
      · exact ih k j h
    · rcases List.mem_cons.mp hj with h | h
      · subst h
        exact Or.inr (by simp)
      · rcases ih (jobKey a) j h with h2 | h2
        · exact Or.inr (by simp [h2])
        · exact Or.inr (by simp; right; simpa using h2)

theorem collapseAux_strict (l : List Job) :
    ∀ k : String × String,
    l.Pairwise (fun a b => keyLe a b = true) →
    (∀ j ∈ l, kle k (jobKey j)) →
    (∀ j ∈ collapseAux k l, kle k (jobKey j) ∧ jobKey j ≠ k) ∧
      ((collapseAux k l).map jobKey).Pairwise (fun p q => kle p q ∧ p ≠ q) := by
  induction l with
  | nil => intro k _ _; simp [collapseAux]
  | cons a rest ih =>
    intro k hsorted hk
    have ha : ∀ b ∈ rest, keyLe a b = true := (List.pairwise_cons.mp hsorted).1
    have hrest : rest.Pairwise (fun a b => keyLe a b = true) :=
      (List.pairwise_cons.mp hsorted).2
    unfold collapseAux
    split
    · rename_i heq
      exact ih k hrest (fun j hj => hk j (List.mem_cons_of_mem a hj))
    · rename_i hne
      have hka : kle k (jobKey a) := hk a (List.mem_cons_self a rest)
      have hrec := ih (jobKey a) hrest
        (fun j hj => (keyLe_iff_kle a j).mp (ha j hj))
      constructor
      · intro j hj
        rcases List.mem_cons.mp hj with h | h
        · subst h
          exact ⟨hka, hne⟩
        · have h2 := hrec.1 j h
          refine ⟨kle_trans hka h2.1, ?_⟩
          intro hjk
          exact hne (kle_antisymm (hjk ▸ h2.1) hka)
      · rw [List.map_cons, List.pairwise_cons]
        refine ⟨?_, hrec.2⟩
        intro p hp
        rcases List.mem_map.mp hp with ⟨j, hj, rfl⟩
        have h2 := hrec.1 j hj
        exact ⟨h2.1, fun h => h2.2 h.symm⟩

theorem groupbyFirst_keys_nodup (l : List Job)
    (hsorted : l.Pairwise (fun a b => keyLe a b = true)) :
    ((groupbyFirst l).map jobKey).Nodup := by
  cases l with
  | nil => simp [groupbyFirst]
  | cons a rest =>
    have ha : ∀ b ∈ rest, keyLe a b = true := (List.pairwise_cons.mp hsorted).1
    have hrest := (List.pairwise_cons.mp hsorted).2
    have hrec := collapseAux_strict rest (jobKey a) hrest
      (fun j hj => (keyLe_iff_kle a j).mp (ha j hj))
    unfold groupbyFirst
    rw [List.map_cons, List.nodup_cons]
    constructor
    · intro hmem
      rcases List.mem_map.mp hmem with ⟨j, hj, hkey⟩
      exact (hrec.1 j hj).2 hkey
    · exact hrec.2.imp (fun h => h.2)

theorem groupbyFirst_keys_cover (l : List Job) :
    ∀ j ∈ l, jobKey j ∈ (groupbyFirst l).map jobKey := by
  cases l with
  | nil => simp
  | cons a rest =>
    intro j hj
    unfold groupbyFirst
    rcases List.mem_cons.mp hj with h | h
    · simp [h]
    · rcases collapseAux_keys_cover (jobKey a) rest j h with h2 | h2
      · simp [h2]
      · simp
        right
        simpa using h2

theorem groupbyFirst_subset (l : List Job) : ∀ j ∈ groupbyFirst l, j ∈ l := by
  cases l with
  | nil => simp [groupbyFirst]
  | cons a rest =>
    intro j hj
    unfold groupbyFirst at hj
    rcases List.mem_cons.mp hj with h | h
    · exact h ▸ List.mem_cons_self a rest
    · exact List.mem_cons_of_mem a (collapseAux_subset (jobKey a) rest j h)

theorem remove_duplicates_keys_nodup (joblist : List Job) :
    ((remove_duplicates joblist).map jobKey).Nodup :=
  groupbyFirst_keys_nodup _
    (@List.sorted_mergeSort Job keyLe
      (fun a b c => by simpa using keyLe_trans a b c)
      (fun a b => by simpa using keyLe_total a b) joblist)

theorem remove_duplicates_subset (joblist : List Job) :
    ∀ j ∈ remove_duplicates joblist, j ∈ joblist := by
  intro j hj
  have := groupbyFirst_subset _ j hj
  exact ((List.mergeSort_perm joblist keyLe).mem_iff).mp this

theorem remove_duplicates_keys_cover (joblist : List Job) :
    ∀ j ∈ joblist, jobKey j ∈ (remove_duplicates joblist).map jobKey := by
  intro j hj
  exact groupbyFirst_keys_cover _ j (((List.mergeSort_perm joblist keyLe).mem_iff).mpr hj)

/-! ### The per-job processing loop of `main` (main.py lines 403-448) -/

/-- `main.convert_date_format` (main.py lines 62-78).  The `strptimeDate`
parameter models `datetime.strptime(date_string, "%Y-%m-%d").date()`
from the Python standard library, returning the day number of the
parsed calendar date, or `none` when a `ValueError` is raised. -/
def convert_date_format (strptimeDate : String → Option Int) (date_string : String) :
    Option Int :=
  strptimeDate date_string

/-- Seconds in a day: `datetime.combine(d, time())` for day number `d`
is the timestamp `d * 86400`. -/
def secondsPerDay : Int := 86400

/-- Result of one iteration of the `for idx, job in enumerate(all_jobs, 1)`
loop of `main` (main.py lines 403-448): the job appended to `job_list`
(if any) and the number of detail-page fetches performed for it. -/
structure StepOut where
  kept : Option Job
  fetches : Nat
deriving DecidableEq, Repr

/-- One iteration of the processing loop of `main` (main.py lines
403-448): skip on empty date, unparseable date, or a date older than
`days_to_scrape` days before `now` — all three happen before the
detail fetch; then fetch the description (`fetchDescription` models
`linkedin_scraper.get_job_description`) and skip jobs whose
description is empty or the fetch-failure sentinel; otherwise append
the job, with its description filled in, to `job_list`. -/
def processJob (strptimeDate : String → Option Int) (now days_to_scrape : Int)
    (fetchDescription : String → String) (job : Job) : StepOut :=
  if job.date = "" then ⟨none, 0⟩
  else
    match convert_date_format strptimeDate job.date with
    | none => ⟨none, 0⟩
    | some d =>
      if d * secondsPerDay < now - days_to_scrape * secondsPerDay then ⟨none, 0⟩
      else
        let desc := fetchDescription job.job_url
        if desc = "" || desc = "Could not fetch job description" then ⟨none, 1⟩
        else ⟨some { job with job_description := desc }, 1⟩

/-- The `job_list` accumulated by the processing loop of `main`. -/
def job_list (strptimeDate : String → Option Int) (now days_to_scrape : Int)
    (fetchDescription : String → String) (all_jobs : List Job) : List Job :=
  all_jobs.filterMap fun job =>
    (processJob strptimeDate now days_to_scrape fetchDescription job).kept

theorem processJob_kept_date (strptimeDate : String → Option Int)
    (now days_to_scrape : Int) (fetchDescription : String → String) (job j : Job)
    (h : (processJob strptimeDate now days_to_scrape fetchDescription job).kept = some j) :
    j.date = job.date := by
  unfold processJob at h
  split at h
  · simp at h
  · split at h
    · simp at h
    · split at h
      · simp at h
      · dsimp only at h
        split at h
        · simp at h
        · simp at h
          subst h
          rfl

/-! ### `LinkedInScraper.get_job_description` (linkedin_scraper.py lines 136-186) -/

/-- `LinkedInScraper.get_job_description` composed with
`_transform_job_description`.  The argument models the outcome of
`get_with_retry(job_url)` followed by the search for the description
container: `none` means the page fetch failed (`soup` is `None`);
`some none` means the page was fetched but the
`description__text description__text--rich` container is absent;
`some (some text)` is the cleaned container text. -/
def get_job_description (fetched : Option (Option String)) : String :=
  match fetched with
  | none => "Could not fetch job description"
  | some none => "Could not find Job Description"
  | some (some text) => text

/-! ### `BaseScraper.get_with_retry` (base_scraper.py lines 63-89) -/

/-- Outcome of one `requests.get` attempt: a parsed document, a
`requests.exceptions.Timeout`, or any other exception. -/
inductive FetchOutcome where
  | success (doc : String)
  | timeout
  | failure
deriving DecidableEq, Repr

def isSuccess : FetchOutcome → Bool
  | .success _ => true
  | _ => false

/-- Observable result of `get_with_retry`: the returned value, the
number of `requests.get` attempts made, and the total time spent in
`tm.sleep` calls. -/
structure RetryResult where
  result : Option String
  attempts : Nat
  sleeps : Nat
deriving DecidableEq, Repr

/-- The `for i in range(retries)` loop of `get_with_retry`: on success
return the parsed document; on `Timeout` sleep `delay` and continue
with the next iteration; on any other exception continue with the next
iteration without sleeping; when the loop ends return `None`.
`outcomes i` models the outcome of the `i`-th `requests.get` call. -/
def get_with_retry_go (outcomes : Nat → FetchOutcome) (delay : Nat) :
    Nat → Nat → Nat → RetryResult
  | i, 0, sleepAcc => ⟨none, i, sleepAcc⟩
  | i, fuel + 1, sleepAcc =>
    match outcomes i with
    | .success doc => ⟨some doc, i + 1, sleepAcc⟩
    | .timeout => get_with_retry_go outcomes delay (i + 1) fuel (sleepAcc + delay)
    | .failure => get_with_retry_go outcomes delay (i + 1) fuel sleepAcc

/-- `BaseScraper.get_with_retry` (base_scraper.py lines 63-89). -/
def get_with_retry (outcomes : Nat → FetchOutcome) (retries delay : Nat) : RetryResult :=
  get_with_retry_go outcomes delay 0 retries 0

/-- Number of timeout outcomes among attempts `i, i+1, ..., i+n-1`. -/
def countTimeoutsIn (outcomes : Nat → FetchOutcome) (i n : Nat) : Nat :=
  (List.range n).countP fun k => decide (outcomes (i + k) = FetchOutcome.timeout)

theorem countTimeoutsIn_zero (outcomes : Nat → FetchOutcome) (i : Nat) :
    countTimeoutsIn outcomes i 0 = 0 := rfl

theorem countTimeoutsIn_succ (outcomes : Nat → FetchOutcome) (i n : Nat) :
    countTimeoutsIn outcomes i (n + 1) =
      (if outcomes i = FetchOutcome.timeout then 1 else 0) +
        countTimeoutsIn outcomes (i + 1) n := by
  unfold countTimeoutsIn
  rw [List.range_succ_eq_map, List.countP_cons, List.countP_map]
  have hfun : ((fun k => decide (outcomes (i + k) = FetchOutcome.timeout)) ∘ Nat.succ) =
      (fun k => decide (outcomes (i + 1 + k) = FetchOutcome.timeout)) := by
    funext k
    simp only [Function.comp_apply]
    rw [show i + Nat.succ k = i + 1 + k by omega]
  rw [hfun]
  by_cases houtcome : outcomes i = FetchOutcome.timeout
  · simp [houtcome]
    omega
  · simp [houtcome]

theorem get_with_retry_go_exhaust (outcomes : Nat → FetchOutcome) (delay : Nat) :
    ∀ (fuel i sleepAcc : Nat),
      (∀ k, k < fuel → isSuccess (outcomes (i + k)) = false) →
      get_with_retry_go outcomes delay i fuel sleepAcc =
        ⟨none, i + fuel, sleepAcc + delay * countTimeoutsIn outcomes i fuel⟩ := by
  intro fuel
  induction fuel with
  | zero => intro i acc _; simp [get_with_retry_go, countTimeoutsIn_zero]
  | succ fuel ih =>
    intro i acc h
    unfold get_with_retry_go
    have h0 := h 0 (Nat.succ_pos fuel)
    rw [Nat.add_zero] at h0
    match houtcome : outcomes i with
    | .success doc => rw [houtcome] at h0; simp [isSuccess] at h0
    | .timeout =>
      rw [ih (i + 1) (acc + delay) (fun k hk => by
        have := h (k + 1) (Nat.succ_lt_succ hk)
        rwa [show i + (k + 1) = i + 1 + k by omega] at this)]
      rw [countTimeoutsIn_succ, houtcome]
      simp
      constructor
      · omega
      · ring
    | .failure =>
      rw [ih (i + 1) acc (fun k hk => by
        have := h (k + 1) (Nat.succ_lt_succ hk)
        rwa [show i + (k + 1) = i + 1 + k by omega] at this)]
      rw [countTimeoutsIn_succ, houtcome]
      simp
      omega

theorem get_with_retry_go_success (outcomes : Nat → FetchOutcome) (delay : Nat)
    (doc : String) :
    ∀ (k fuel i sleepAcc : Nat), k < fuel →
      (∀ j, j < k → isSuccess (outcomes (i + j)) = false) →
      outcomes (i + k) = FetchOutcome.success doc →
      get_with_retry_go outcomes delay i fuel sleepAcc =
        ⟨some doc, i + k + 1, sleepAcc + delay * countTimeoutsIn outcomes i k⟩ := by
  intro k
  induction k with
  | zero =>
    intro fuel i acc hk _ hsucc
    match fuel, hk with
    | fuel + 1, _ =>
      unfold get_with_retry_go
      rw [Nat.add_zero] at hsucc
      rw [hsucc]
      simp [countTimeoutsIn_zero]
  | succ k ih =>
    intro fuel i acc hk hpre hsucc
    match fuel, hk with
    | fuel + 1, hk =>
      unfold get_with_retry_go
      have h0 := hpre 0 (Nat.succ_pos k)
      rw [Nat.add_zero] at h0
      match houtcome : outcomes i with
      | .success d => rw [houtcome] at h0; simp [isSuccess] at h0
      | .timeout =>
        rw [ih fuel (i + 1) (acc + delay) (Nat.lt_of_succ_lt_succ hk)
          (fun j hj => by
            have := hpre (j + 1) (Nat.succ_lt_succ hj)
            rwa [show i + (j + 1) = i + 1 + j by omega] at this)
          (by rwa [show i + 1 + k = i + (k + 1) by omega])]
        rw [countTimeoutsIn_succ, houtcome]
        simp
        constructor
        · omega
        · ring
      | .failure =>
        rw [ih fuel (i + 1) acc (Nat.lt_of_succ_lt_succ hk)
          (fun j hj => by
            have := hpre (j + 1) (Nat.succ_lt_succ hj)
            rwa [show i + (j + 1) = i + 1 + j by omega] at this)
          (by rwa [show i + 1 + k = i + (k + 1) by omega])]
        rw [countTimeoutsIn_succ, houtcome]
        simp
        omega

/-! ### Cross-batch dedup (`main.job_exists` / `main.find_new_jobs`, lines 164-211) -/

/-- `main.job_exists` (main.py lines 164-170): the job exists in the
dataframe if some row has the same `job_url`, or some row has the same
`(title, company, date)` triple. -/
def job_exists (df : List Job) (job : Job) : Bool :=
  if df.isEmpty then false
  else
    (df.any fun r => r.job_url == job.job_url) ||
      (df.any fun r => r.title == job.title && r.company == job.company && r.date == job.date)

/-- `main.find_new_jobs` (main.py lines 196-211): keep the jobs found
in neither the accepted (`jobs`) table nor the rejected
(`filtered_jobs`) table. -/
def find_new_jobs (all_jobs jobs_db filtered_jobs_db : List Job) : List Job :=
  all_jobs.filter fun job => !(job_exists jobs_db job) && !(job_exists filtered_jobs_db job)

theorem job_exists_iff (df : List Job) (job : Job) :
    job_exists df job = true ↔
      ∃ r ∈ df, r.job_url = job.job_url ∨
        (r.title = job.title ∧ r.company = job.company ∧ r.date = job.date) := by
  unfold job_exists
  split
  · rename_i hempty
    rw [List.isEmpty_iff] at hempty
    subst hempty
    simp
  · simp only [Bool.or_eq_true, List.any_eq_true, Bool.and_eq_true, beq_iff_eq]
    constructor
    · rintro (⟨r, hr, h⟩ | ⟨r, hr, ⟨⟨h1, h2⟩, h3⟩⟩)
      · exact ⟨r, hr, Or.inl h⟩
      · exact ⟨r, hr, Or.inr ⟨h1, h2, h3⟩⟩
    · rintro ⟨r, hr, h | ⟨h1, h2, h3⟩⟩
      · exact Or.inl ⟨r, hr, h⟩
      · exact Or.inr ⟨r, hr, ⟨h1, h2⟩, h3⟩

/-! ### Incremental sync (`main.update_table`, lines 142-154) -/

/-- The `(title, company, date)` key used by
`drop_duplicates(['title', 'company', 'date'], keep=False)`. -/
def jobKey3 (j : Job) : String × String × String := (j.title, j.company, j.date)

/-- Number of rows of `l` whose `(title, company, date)` key is `k`. -/
def countKey3 (l : List Job) (k : String × String × String) : Nat :=
  l.countP fun r => decide (jobKey3 r = k)

/-- `main.update_table` (main.py lines 142-154), restricted to the rows
it appends: `pd.concat([df, df_existing, df_existing])` followed by
`drop_duplicates(['title', 'company', 'date'], keep=False)` keeps
exactly the rows whose key occurs once in the concatenation; those
rows are appended to the table. -/
def update_table (df df_existing : List Job) : List Job :=
  let concatenated := df ++ df_existing ++ df_existing
  concatenated.filter fun r => countKey3 concatenated (jobKey3 r) == 1

/-- The behaviour claimed by the spec for the incremental update: keep
exactly the batch rows whose key does not occur among the existing
rows.  Stated from the spec's words, for comparison with
`update_table`. -/
def claimed_append_rows (df df_existing : List Job) : List Job :=
  df.filter fun r => countKey3 df_existing (jobKey3 r) == 0

theorem countKey3_append (l1 l2 : List Job) (k : String × String × String) :
    countKey3 (l1 ++ l2) k = countKey3 l1 k + countKey3 l2 k := by
  unfold countKey3
  exact List.countP_append _ _ _

theorem countKey3_pos_of_mem {l : List Job} {r : Job} (h : r ∈ l) :
    0 < countKey3 l (jobKey3 r) := by
  unfold countKey3
  rw [List.countP_pos_iff]
  exact ⟨r, h, by simp⟩

theorem update_table_eq (df df_existing : List Job) :
    update_table df df_existing =
      df.filter fun r =>
        countKey3 df (jobKey3 r) == 1 && countKey3 df_existing (jobKey3 r) == 0 := by
  unfold update_table
  have hcount : ∀ k, countKey3 (df ++ df_existing ++ df_existing) k =
      countKey3 df k + countKey3 df_existing k + countKey3 df_existing k := by
    intro k
    rw [countKey3_append, countKey3_append]
  rw [List.filter_append, List.filter_append]
  have hex : ∀ l, l = df_existing →
      (l.filter fun r =>
        countKey3 (df ++ df_existing ++ df_existing) (jobKey3 r) == 1) = [] := by
    intro l hl
    subst hl
    rw [List.filter_eq_nil_iff]
    intro r hr
    have := countKey3_pos_of_mem hr
    rw [hcount (jobKey3 r)]
    simp only [beq_iff_eq]
    omega
  rw [hex df_existing rfl, List.append_nil, List.append_nil]
  apply List.filter_congr
  intro r hr
  have := countKey3_pos_of_mem hr
  rw [hcount (jobKey3 r)]
  rw [Bool.eq_iff_iff]
  simp only [Bool.and_eq_true, beq_iff_eq]
  omega

theorem update_table_idempotent (df df_existing : List Job) :
    update_table df (df_existing ++ update_table df df_existing) = [] := by
  rw [update_table_eq df (df_existing ++ update_table df df_existing)]
  rw [List.filter_eq_nil_iff]
  intro r hr
  simp only [Bool.and_eq_true, beq_iff_eq]
  rintro ⟨h1, h0⟩
  rw [countKey3_append] at h0
  have happ : r ∈ update_table df df_existing := by
    rw [update_table_eq]
    rw [List.mem_filter]
    refine ⟨hr, ?_⟩
    simp only [Bool.and_eq_true, beq_iff_eq]
    omega
  have := countKey3_pos_of_mem happ
  omega

/-! ### `BaseScraper.normalize_job` (base_scraper.py lines 91-115) -/

/-- A Python value stored in a job dictionary (string or int). -/
inductive Val where
  | s (v : String)
  | i (v : Int)
deriving DecidableEq, Repr

/-- `job.get(key, default)` on a Python dict modelled as an
association list. -/
def dictGet (job : List (String × Val)) (key : String) (default : Val) : Val :=
  match job.lookup key with
  | some v => v
  | none => default

/-- `BaseScraper.normalize_job` (base_scraper.py lines 91-115): the
normalized dictionary literal built by the method, with
`self.source_name` passed explicitly. -/
def normalize_job (source_name : String) (job : List (String × Val)) :
    List (String × Val) :=
  [("title", dictGet job "title" (Val.s "")),
   ("company", dictGet job "company" (Val.s "")),
   ("location", dictGet job "location" (Val.s "")),
   ("date", dictGet job "date" (Val.s "")),
   ("job_url", dictGet job "job_url" (Val.s "")),
   ("job_description", dictGet job "job_description" (Val.s "")),
   ("source", Val.s source_name),
   ("applied", dictGet job "applied" (Val.i 0)),
   ("hidden", dictGet job "hidden" (Val.i 0)),
   ("interview", dictGet job "interview" (Val.i 0)),
   ("rejected", dictGet job "rejected" (Val.i 0))]

/-! ### Retention cleanup (`main.hide_old_unapplied_jobs`, lines 235-338) -/

/-- A row of the accepted (`jobs`) table as consulted by
`hide_old_unapplied_jobs`.  `hidden` is an `Option Bool` because the
code distinguishes `hidden = 0`, `hidden = 1` and `hidden IS NULL`. -/
structure JobRow where
  id : Nat
  applied : Bool
  saved : Bool
  hidden : Option Bool
  date_loaded : Option String
deriving DecidableEq, Repr

/-- The timestamp formats tried for `date_loaded`
(main.py line 302). -/
def date_loaded_formats : List String :=
  ["%Y-%m-%d %H:%M:%S", "%Y-%m-%d %H:%M:%S.%f", "%Y-%m-%d"]

/-- The format-fallback loop of main.py lines 300-307: the first
format under which `datetime.strptime` succeeds wins.  `strptime fmt s`
models the standard-library `datetime.strptime(s, fmt)` as an integer
timestamp, `none` on `ValueError`. -/
def parse_date_loaded (strptime : String → String → Option Int) (s : String) :
    Option Int :=
  (date_loaded_formats.filterMap fun fmt => strptime fmt s).head?

/-- The SQL `WHERE` clause of the candidate `SELECT` (main.py lines
278-285, the branch where the `saved` column exists): `applied = 0 AND
saved = 0 AND (hidden = 0 OR hidden IS NULL) AND date_loaded IS NOT
NULL AND date_loaded != ''`. -/
def retention_candidate (r : JobRow) : Bool :=
  (!r.applied) && (!r.saved) && (r.hidden == some false || r.hidden == none) &&
    !(r.date_loaded == none) && !(r.date_loaded == some "")

/-- The body of the `for row in cursor.fetchall()` loop (main.py lines
296-318): parse `date_loaded` (skip on failure) and collect the row id
when the parsed time is strictly before the cutoff. -/
def hide_decision (strptime : String → String → Option Int) (cutoff : Int)
    (r : JobRow) : Option Nat :=
  match r.date_loaded with
  | none => none
  | some s =>
    match parse_date_loaded strptime s with
    | none => none
    | some t => if t < cutoff then some r.id else none

/-- The `jobs_to_hide` id list accumulated by
`hide_old_unapplied_jobs`. -/
def jobs_to_hide (strptime : String → String → Option Int) (cutoff : Int)
    (tbl : List JobRow) : List Nat :=
  (tbl.filter retention_candidate).filterMap (hide_decision strptime cutoff)

/-- `main.hide_old_unapplied_jobs` (main.py lines 235-338) acting on
the accepted table: threshold `≤ 0` disables the cleanup; otherwise
the rows whose id is in `jobs_to_hide` get `hidden = 1` via the
batched `UPDATE`, and no row is deleted. -/
def hide_old_unapplied_jobs (strptime : String → String → Option Int) (now : Int)
    (days_threshold : Int) (tbl : List JobRow) : List JobRow :=
  if days_threshold ≤ 0 then tbl
  else
    let cutoff := now - days_threshold * secondsPerDay
    let ids := jobs_to_hide strptime cutoff tbl
    tbl.map fun r => if ids.contains r.id then { r with hidden := some true } else r

/-- A row qualifies for hiding iff it satisfies the SQL candidate
conditions and its `date_loaded` parses to a time before the cutoff. -/
def qualifies (strptime : String → String → Option Int) (cutoff : Int)
    (r : JobRow) : Bool :=
  retention_candidate r && (hide_decision strptime cutoff r).isSome

theorem hide_decision_some_id (strptime : String → String → Option Int) (cutoff : Int)
    (r : JobRow) (x : Nat) (h : hide_decision strptime cutoff r = some x) : x = r.id := by
  unfold hide_decision at h
  split at h
  · exact absurd h (by simp)
  · split at h
    · exact absurd h (by simp)
    · split at h
      · exact (Option.some_inj.mp h).symm
      · exact absurd h (by simp)

theorem hide_decision_isSome (strptime : String → String → Option Int) (cutoff : Int)
    (r : JobRow) (h : (hide_decision strptime cutoff r).isSome = true) :
    hide_decision strptime cutoff r = some r.id := by
  rcases Option.isSome_iff_exists.mp h with ⟨x, hx⟩
  rw [hx, hide_decision_some_id strptime cutoff r x hx]

theorem mem_jobs_to_hide (strptime : String → String → Option Int) (cutoff : Int)
    (tbl : List JobRow) (x : Nat) :
    x ∈ jobs_to_hide strptime cutoff tbl ↔
      ∃ r ∈ tbl, qualifies strptime cutoff r = true ∧ r.id = x := by
  unfold jobs_to_hide
  rw [List.mem_filterMap]
  constructor
  · rintro ⟨r, hr, hdec⟩
    rcases List.mem_filter.mp hr with ⟨hrtbl, hcand⟩
    refine ⟨r, hrtbl, ?_, (hide_decision_some_id strptime cutoff r x hdec).symm⟩
    unfold qualifies
    rw [hcand, hdec]
    rfl
  · rintro ⟨r, hrtbl, hq, hid⟩
    unfold qualifies at hq
    rw [Bool.and_eq_true] at hq
    obtain ⟨hcand, hsome⟩ := hq
    refine ⟨r, List.mem_filter.mpr ⟨hrtbl, hcand⟩, ?_⟩
    rw [hide_decision_isSome strptime cutoff r hsome, hid]

theorem hide_old_unapplied_jobs_eq (strptime : String → String → Option Int)
    (now days_threshold : Int) (tbl : List JobRow) (hpos : 0 < days_threshold)
    (hids : (tbl.map JobRow.id).Nodup) :
    hide_old_unapplied_jobs strptime now days_threshold tbl =
      tbl.map fun r =>
        if qualifies strptime (now - days_threshold * secondsPerDay) r then
          { r with hidden := some true } else r := by
  unfold hide_old_unapplied_jobs
  rw [if_neg (by omega)]
  apply List.map_congr_left
  intro r hr
  have hinj := List.inj_on_of_nodup_map hids
  by_cases hq : qualifies strptime (now - days_threshold * secondsPerDay) r = true
  · have hmem : r.id ∈ jobs_to_hide strptime (now - days_threshold * secondsPerDay) tbl :=
      (mem_jobs_to_hide _ _ _ _).mpr ⟨r, hr, hq, rfl⟩
    rw [if_pos (List.elem_iff.mpr hmem), if_pos hq]
  · have hmem : r.id ∉ jobs_to_hide strptime (now - days_threshold * secondsPerDay) tbl := by
      intro hmem
      rcases (mem_jobs_to_hide _ _ _ _).mp hmem with ⟨r2, hr2, hq2, hid2⟩
      exact hq ((hinj hr2 hr hid2) ▸ hq2)
    rw [if_neg (fun h => hmem (List.elem_iff.mp h)), if_neg hq]

/-! ## Claim theorems -/

/-- Convenience constructor for concrete jobs used in witnesses and
counterexamples. -/
def mkJob (title company date url desc : String) : Job :=
  { title := title, company := company, location := "", date := date,
    job_url := url, job_description := desc, source := "linkedin",
    applied := false, hidden := false, interview := false, rejected := false }

/-- C1 (amended): for a processed posting, membership in the accepted
batch (`jobs_to_add`) is equivalent to passing all five stages of the
final `remove_irrelevant_jobs` pass, and membership in the rejected
batch (`filtered_list`) is equivalent to failing some stage of that
pass — so every stage of the final pass, not only the
description-keyword stage, determines table placement.  In particular
a posting whose description contains a banned word always lands in the
rejected batch and never in the accepted batch, regardless of the
title/company/language filters. -/
theorem c1_filter_placement (detect : String → String) (config : Config)
    (jl : List Job) (job : Job) (h : job ∈ jl) :
    (job ∈ jobs_to_add detect jl config ↔ passesAllStages detect config job = true) ∧
    (job ∈ filtered_list detect jl config ↔ passesAllStages detect config job = false) ∧
    ((config.desc_words.any fun w => containsSub job.job_description w) = true →
      job ∈ filtered_list detect jl config ∧ job ∉ jobs_to_add detect jl config) := by
  have hadd : job ∈ jobs_to_add detect jl config ↔
      passesAllStages detect config job = true := by
    unfold jobs_to_add
    rw [mem_remove_irrelevant_jobs]
    simp [h]
  have hfl : job ∈ filtered_list detect jl config ↔
      job ∉ jobs_to_add detect jl config := by
    unfold filtered_list
    rw [List.mem_filter]
    constructor
    · rintro ⟨-, hb⟩
      intro hmem
      simp only [List.contains] at hb
      rw [List.elem_iff.mpr hmem] at hb
      simp at hb
    · intro hnot
      refine ⟨h, ?_⟩
      simp only [List.contains]
      cases hc : List.elem job (jobs_to_add detect jl config)
      · rfl
      · exact absurd (List.elem_iff.mp hc) hnot
  refine ⟨hadd, ?_, ?_⟩
  · rw [hfl]
    rw [hadd]
    simp
  · intro hbanned
    have hfalse : passesAllStages detect config job = false := by
      unfold passesAllStages
      rw [hbanned]
      rfl
    have hnotin : job ∉ jobs_to_add detect jl config := by
      intro hm
      rw [hadd] at hm
      rw [hm] at hfalse
      simp at hfalse
    exact ⟨hfl.mpr hnotin, hnotin⟩

def c1Job : Job :=
  mkJob "Backend Engineer" "Acme" "2026-10-10" "https://x/1" "bonjour tout le monde"

def c1Config : Config := ⟨[], [], [], ["en"], []⟩

def c1Detect : String → String :=
  fun d => if d = "bonjour tout le monde" then "fr" else "en"

/-- C1 counterexample: with an empty banned-word list and the language
allow-list `["en"]`, a processed posting whose description contains no
banned word is nevertheless placed in the rejected batch
(`filtered_list`) because the language stage drops it — refuting the
claim that a posting whose description contains no banned word is
never written to the rejected table and that stages 2-5 do not
determine table placement at ingestion. -/
theorem c1_counterexample :
    c1Job ∈ filtered_list c1Detect [c1Job] c1Config ∧
      (c1Config.desc_words.any fun w => containsSub c1Job.job_description w) = false := by
  constructor
  · decide
  · decide

def c1WConfig : Config := ⟨["unpaid"], ["senior"], [], ["en"], ["evilcorp"]⟩

def c1WJob : Job :=
  mkJob "Engineer" "Acme" "2026-01-01" "https://x/2" "This is an unpaid internship"

/-- C1 witness: concrete instance of `c1_filter_placement` — a posting
whose description contains the banned word "unpaid" lands in the
rejected batch and not in the accepted batch. -/
theorem c1_witness :
    c1WJob ∈ [c1WJob] ∧
      (c1WJob ∈ filtered_list (fun _ => "en") [c1WJob] c1WConfig ∧
        c1WJob ∉ jobs_to_add (fun _ => "en") [c1WJob] c1WConfig) :=
  ⟨by decide,
    (c1_filter_placement (fun _ => "en") c1WConfig [c1WJob] c1WJob (by decide)).2.2
      (by decide)⟩

/-- C2 counterexample: a batch containing two rows with the same
`(title, company, date)` key, against an existing table with no row of
that key: `update_table` appends neither row, while the claim ("exactly
those rows of the new batch whose key does not already occur among the
existing rows", stated as `claimed_append_rows`) predicts both rows are
appended. -/
def c2Row : Job := mkJob "Backend Engineer" "Acme" "2026-10-01" "https://x/1" ""

theorem c2_counterexample :
    update_table [c2Row, c2Row] [] = [] ∧
      claimed_append_rows [c2Row, c2Row] [] = [c2Row, c2Row] := by
  constructor
  · decide
  · decide

/-- C2 (amended): `update_table` appends exactly those rows of the new
batch whose `(title, company, date)` key occurs exactly once within
the batch and not at all among the existing rows (batch rows sharing a
key are all dropped by the `keep=False` duplicate-drop); consequently
re-running the update with the same batch against the grown table
appends zero rows, so a second pipeline run against an unchanged
external source inserts nothing. -/
theorem c2_incremental_update (df df_existing : List Job) :
    update_table df df_existing =
      (df.filter fun r =>
        countKey3 df (jobKey3 r) == 1 && countKey3 df_existing (jobKey3 r) == 0) ∧
    update_table df (df_existing ++ update_table df df_existing) = [] :=
  ⟨update_table_eq df df_existing, update_table_idempotent df df_existing⟩

/-- C10: if the batch contains two or more rows sharing a
`(title, company, date)` key and no existing row has that key, then no
row with that key is appended at all — the `keep=False` duplicate-drop
eliminates in-batch key duplicates entirely instead of inserting one
representative. -/
theorem c10_inbatch_duplicates_dropped (df df_existing : List Job)
    (k : String × String × String) (h2 : 2 ≤ countKey3 df k)
    (_h0 : countKey3 df_existing k = 0) :
    countKey3 (update_table df df_existing) k = 0 := by
  rw [update_table_eq]
  unfold countKey3 at *
  rw [List.countP_filter, List.countP_eq_zero]
  intro r hr
  simp only [Bool.and_eq_true, beq_iff_eq, decide_eq_true_eq]
  rintro ⟨hk, h1, -⟩
  rw [hk] at h1
  omega

def c10RowA : Job := mkJob "Backend Engineer" "Acme" "2026-10-01" "https://x/1" ""

def c10RowB : Job := mkJob "Backend Engineer" "Acme" "2026-10-01" "https://x/2" ""

/-- C10 witness: two same-key rows with different urls, empty existing
table — nothing with that key is appended. -/
theorem c10_witness :
    2 ≤ countKey3 [c10RowA, c10RowB] (jobKey3 c10RowA) ∧
      countKey3 [] (jobKey3 c10RowA) = 0 ∧
      countKey3 (update_table [c10RowA, c10RowB] []) (jobKey3 c10RowA) = 0 :=
  ⟨by decide, by decide,
    c10_inbatch_duplicates_dropped [c10RowA, c10RowB] [] (jobKey3 c10RowA)
      (by decide) (by decide)⟩

/-- C3: a card of the batch is excluded by cross-batch dedup
(`find_new_jobs`) iff its `job_url` exactly equals the `job_url` of
some row of the accepted or rejected table, or its
`(title, company, date)` triple exactly equals that of some row of
either table; a card matching neither condition in both tables is
kept. -/
theorem c3_cross_batch_dedup (all_jobs jobs_db filtered_jobs_db : List Job)
    (job : Job) (h : job ∈ all_jobs) :
    job ∉ find_new_jobs all_jobs jobs_db filtered_jobs_db ↔
      ∃ r, (r ∈ jobs_db ∨ r ∈ filtered_jobs_db) ∧
        (r.job_url = job.job_url ∨
          (r.title = job.title ∧ r.company = job.company ∧ r.date = job.date)) := by
  unfold find_new_jobs
  rw [List.mem_filter]
  simp only [h, true_and, Bool.and_eq_true, Bool.not_eq_true', not_and]
  constructor
  · intro hnot
    cases h1 : job_exists jobs_db job
    · cases h2 : job_exists filtered_jobs_db job
      · exact absurd h2 (hnot h1)
      · rcases (job_exists_iff filtered_jobs_db job).mp h2 with ⟨r, hr, hcond⟩
        exact ⟨r, Or.inr hr, hcond⟩
    · rcases (job_exists_iff jobs_db job).mp h1 with ⟨r, hr, hcond⟩
      exact ⟨r, Or.inl hr, hcond⟩
  · rintro ⟨r, hside, hcond⟩
    intro h1 h2
    rcases hside with hr | hr
    · have hx : job_exists jobs_db job = true :=
        (job_exists_iff jobs_db job).mpr ⟨r, hr, hcond⟩
      rw [h1] at hx
      exact Bool.noConfusion hx
    · have hx : job_exists filtered_jobs_db job = true :=
        (job_exists_iff filtered_jobs_db job).mpr ⟨r, hr, hcond⟩
      rw [h2] at hx
      exact Bool.noConfusion hx

theorem count_eq_one_of_nodup_of_mem {α} [BEq α] [LawfulBEq α] {l : List α} {a : α}
    (hn : l.Nodup) (ha : a ∈ l) : l.count a = 1 := by
  induction l with
  | nil => cases ha
  | cons b t ih =>
    rw [List.count_cons]
    rcases List.mem_cons.mp ha with rfl | ha2
    · have hnot : a ∉ t := (List.nodup_cons.mp hn).1
      rw [List.count_eq_zero.mpr hnot]
      simp
    · rw [ih (List.nodup_cons.mp hn).2 ha2]
      have hne : (b == a) = false := by
        simp
        rintro rfl
        exact (List.nodup_cons.mp hn).1 ha2
      simp [hne]

def c3Existing : Job := mkJob "Backend Engineer" "Acme" "2026-10-01" "https://x/1" ""

def c3New : Job := mkJob "Data Engineer" "Beta" "2026-10-02" "https://x/1" ""

/-- C3 witness: a new card whose `job_url` matches a row of the
accepted table is excluded even though its `(title, company, date)`
triple matches nothing. -/
theorem c3_witness :
    c3New ∈ [c3New] ∧
      c3New ∉ find_new_jobs [c3New] [c3Existing] [] :=
  ⟨by decide,
    (c3_cross_batch_dedup [c3New] [c3Existing] [] c3New (by decide)).mpr
      ⟨c3Existing, Or.inl (by decide), Or.inl (by decide)⟩⟩

/-- C4: intra-batch dedup — `remove_duplicates` sorts the batch by the
`(title, company)` key and keeps the first element of each run of
equal keys; consequently every retained row comes from the batch, no
two rows of the output share a `(title, company)` key, and every key
present in the batch (in particular the shared key of any two cards
agreeing on title and company while differing in `job_url` or `date`)
is retained exactly once. -/
theorem c4_intra_batch_dedup (joblist : List Job) :
    (∀ j ∈ remove_duplicates joblist, j ∈ joblist) ∧
    ((remove_duplicates joblist).map jobKey).Nodup ∧
    (∀ j ∈ joblist, ((remove_duplicates joblist).map jobKey).count (jobKey j) = 1) := by
  refine ⟨remove_duplicates_subset joblist, remove_duplicates_keys_nodup joblist, ?_⟩
  intro j hj
  exact count_eq_one_of_nodup_of_mem (remove_duplicates_keys_nodup joblist)
    (remove_duplicates_keys_cover joblist j hj)

def c4JobA : Job := mkJob "Backend Engineer" "Acme" "2026-10-01" "https://x/1" ""

def c4JobB : Job := mkJob "Backend Engineer" "Acme" "2026-10-05" "https://x/2" ""

/-- C4 witness: two cards sharing `(title, company)` but with
different urls and dates collapse to exactly one retained row. -/
theorem c4_witness :
    c4JobA ∈ [c4JobA, c4JobB] ∧
      ((remove_duplicates [c4JobA, c4JobB]).map jobKey).count (jobKey c4JobA) = 1 :=
  ⟨by decide,
    (c4_intra_batch_dedup [c4JobA, c4JobB]).2.2 c4JobA (by decide)⟩

/-- C5 (amended): the `get_with_retry` loop makes at most `retries`
attempts; a timeout costs one `delay`-second sleep and control passes
to the next attempt; any other exception also passes control to the
next attempt, immediately and with no sleep (it does not abort the
loop); the first successful attempt's document is returned; when no
attempt succeeds the function returns `none` rather than raising. -/
theorem c5_fetch_retry (outcomes : Nat → FetchOutcome) (retries delay : Nat) :
    ((∀ k, k < retries → isSuccess (outcomes k) = false) →
      get_with_retry outcomes retries delay =
        ⟨none, retries, delay * countTimeoutsIn outcomes 0 retries⟩) ∧
    (∀ k doc, k < retries → (∀ j, j < k → isSuccess (outcomes j) = false) →
      outcomes k = FetchOutcome.success doc →
      get_with_retry outcomes retries delay =
        ⟨some doc, k + 1, delay * countTimeoutsIn outcomes 0 k⟩) := by
  constructor
  · intro h
    unfold get_with_retry
    rw [get_with_retry_go_exhaust outcomes delay retries 0 0 (by simpa using h)]
    simp
  · intro k doc hk hpre hsucc
    unfold get_with_retry
    rw [get_with_retry_go_success outcomes delay doc k retries 0 0 hk
      (by simpa using hpre) (by simpa using hsucc)]
    simp

def c5Outcomes : Nat → FetchOutcome :=
  fun i => if i = 0 then FetchOutcome.failure else FetchOutcome.success "doc"

/-- C5 counterexample: the first attempt raises a non-timeout
exception, yet a second attempt is made and its result returned —
refuting the claim that the fetcher aborts immediately without any
further attempt on a non-timeout exception. -/
theorem c5_counterexample :
    get_with_retry c5Outcomes 3 1 = ⟨some "doc", 2, 0⟩ ∧
      c5Outcomes 0 = FetchOutcome.failure := by
  constructor
  · decide
  · decide

/-- C5 witness: all attempts time out — the fetcher makes exactly
`retries` attempts, sleeps `retries * delay` seconds, and returns
`none`. -/
theorem c5_witness :
    get_with_retry (fun _ => FetchOutcome.timeout) 2 5 = ⟨none, 2, 10⟩ :=
  ((c5_fetch_retry (fun _ => FetchOutcome.timeout) 2 5).1 (fun _ _ => rfl)).trans
    (by decide)

def c6Job : Job := mkJob "Data Engineer" "Acme" "2026-10-10" "https://x/9" ""

def c6Strptime : String → Option Int :=
  fun s => if s = "2026-10-10" then some 20736 else none

def c6Now : Int := 20736 * 86400

def c6FetchFail : String → Option (Option String) := fun _ => none

/-- C6 counterexample: when the detail-page fetch fails, the
description becomes the sentinel "Could not fetch job description"
and the job is dropped from the run at that point (`kept = none`,
after one fetch) — refuting the claim that it still proceeds through
the filter stages carrying that sentinel. -/
theorem c6_counterexample :
    processJob c6Strptime c6Now 10
        (fun url => get_job_description (c6FetchFail url)) c6Job = ⟨none, 1⟩ ∧
      get_job_description (c6FetchFail c6Job.job_url) =
        "Could not fetch job description" := by
  constructor
  · decide
  · decide

/-- C6 (amended): for a job inside the date window, a failed
detail-page fetch (`soup` is `None`) yields the sentinel
"Could not fetch job description" and the job is skipped — it does not
proceed to the filter stages; whereas a fetched page whose description
container is absent yields the sentinel
"Could not find Job Description" and the job does proceed, carrying
that sentinel as its description. -/
theorem c6_detail_fetch_failure (strptimeDate : String → Option Int)
    (now days_to_scrape : Int) (fetchOracle : String → Option (Option String))
    (job : Job) (d : Int) (hdate : job.date ≠ "")
    (hparse : strptimeDate job.date = some d)
    (hrecent : ¬(d * secondsPerDay < now - days_to_scrape * secondsPerDay)) :
    (fetchOracle job.job_url = none →
      processJob strptimeDate now days_to_scrape
        (fun url => get_job_description (fetchOracle url)) job = ⟨none, 1⟩) ∧
    (fetchOracle job.job_url = some none →
      processJob strptimeDate now days_to_scrape
        (fun url => get_job_description (fetchOracle url)) job =
        ⟨some { job with job_description := "Could not find Job Description" }, 1⟩) := by
  constructor
  · intro hfetch
    simp [processJob, convert_date_format, hdate, hparse, hrecent, hfetch,
      get_job_description]
  · intro hfetch
    simp [processJob, convert_date_format, hdate, hparse, hrecent, hfetch,
      get_job_description]

/-- C6 witness: a job whose detail page is fetched but has no
description container proceeds with the "Could not find Job
Description" sentinel. -/
theorem c6_witness :
    processJob c6Strptime c6Now 10
      (fun url => get_job_description ((fun _ => some none :
        String → Option (Option String)) url)) c6Job =
      ⟨some { c6Job with job_description := "Could not find Job Description" }, 1⟩ :=
  (c6_detail_fetch_failure c6Strptime c6Now 10 (fun _ => some none) c6Job 20736
    (by decide) (by decide) (by decide)).2 rfl

/-- C7: retention cleanup with a positive day threshold (and distinct
row ids) maps the accepted table pointwise: exactly the rows with
`applied = 0`, `saved = 0`, `hidden` not already 1, and a nonempty
`date_loaded` that parses under one of the known formats to a time
strictly older than the cutoff get `hidden = 1`; everything else is
unchanged, and no row is deleted (the table keeps its length).
Rows whose `date_loaded` fails to parse never qualify, and a row with
`applied = 1` never qualifies regardless of age. -/
theorem c7_retention_cleanup (strptime : String → String → Option Int)
    (now days_threshold : Int) (tbl : List JobRow) (hpos : 0 < days_threshold)
    (hids : (tbl.map JobRow.id).Nodup) :
    hide_old_unapplied_jobs strptime now days_threshold tbl =
      (tbl.map fun r =>
        if qualifies strptime (now - days_threshold * secondsPerDay) r then
          { r with hidden := some true } else r) ∧
    (hide_old_unapplied_jobs strptime now days_threshold tbl).length = tbl.length ∧
    (∀ r : JobRow, r.applied = true →
      qualifies strptime (now - days_threshold * secondsPerDay) r = false) ∧
    (∀ r : JobRow, ∀ s, r.date_loaded = some s →
      parse_date_loaded strptime s = none →
      qualifies strptime (now - days_threshold * secondsPerDay) r = false) := by
  refine ⟨hide_old_unapplied_jobs_eq strptime now days_threshold tbl hpos hids, ?_, ?_, ?_⟩
  · rw [hide_old_unapplied_jobs_eq strptime now days_threshold tbl hpos hids]
    exact List.length_map tbl _
  · intro r happ
    unfold qualifies retention_candidate
    rw [happ]
    rfl
  · intro r s hs hparse
    unfold qualifies hide_decision
    rw [hs]
    simp [hparse]

def c7Strptime : String → String → Option Int :=
  fun fmt s =>
    if fmt = "%Y-%m-%d %H:%M:%S" && s = "2026-09-01 10:00:00" then some 100
    else if fmt = "%Y-%m-%d" && s = "2026-10-11" then some 5000000
    else none

def c7RowOld : JobRow :=
  { id := 1, applied := false, saved := false, hidden := some false,
    date_loaded := some "2026-09-01 10:00:00" }

def c7RowApplied : JobRow :=
  { id := 2, applied := true, saved := false, hidden := some false,
    date_loaded := some "2026-09-01 10:00:00" }

def c7RowBadDate : JobRow :=
  { id := 3, applied := false, saved := false, hidden := none,
    date_loaded := some "garbage" }

/-- C7 witness: with a 30-day threshold, an old unapplied row is
hidden while an equally old applied row and a row with an unparseable
timestamp are untouched, and the table keeps all three rows. -/
theorem c7_witness :
    (0 : Int) < 30 ∧
      ([c7RowOld, c7RowApplied, c7RowBadDate].map JobRow.id).Nodup ∧
      hide_old_unapplied_jobs c7Strptime (30 * 86400 + 200) 30
          [c7RowOld, c7RowApplied, c7RowBadDate] =
        ([c7RowOld, c7RowApplied, c7RowBadDate].map fun r =>
          if qualifies c7Strptime ((30 * 86400 + 200) - 30 * secondsPerDay) r then
            { r with hidden := some true } else r) :=
  ⟨by decide, by decide,
    (c7_retention_cleanup c7Strptime (30 * 86400 + 200) 30
      [c7RowOld, c7RowApplied, c7RowBadDate] (by decide) (by decide)).1⟩

/-- C8: a card surviving cross-batch dedup whose date string is empty,
fails strict `YYYY-MM-DD` parsing, or parses to a date older than
`days_to_scrape` days before now, is skipped before the detail fetch:
its loop iteration performs zero detail fetches and keeps nothing, so
the card enters neither `job_list` nor either of the two table batches
(`jobs_to_add`, `filtered_list`). -/
theorem c8_date_window (strptimeDate : String → Option Int) (now days_to_scrape : Int)
    (fetchDescription : String → String) (detect : String → String) (config : Config)
    (all_jobs : List Job) (job : Job)
    (h : job.date = "" ∨ convert_date_format strptimeDate job.date = none ∨
      ∃ d, convert_date_format strptimeDate job.date = some d ∧
        d * secondsPerDay < now - days_to_scrape * secondsPerDay) :
    processJob strptimeDate now days_to_scrape fetchDescription job = ⟨none, 0⟩ ∧
    job ∉ job_list strptimeDate now days_to_scrape fetchDescription all_jobs ∧
    job ∉ jobs_to_add detect
      (job_list strptimeDate now days_to_scrape fetchDescription all_jobs) config ∧
    job ∉ filtered_list detect
      (job_list strptimeDate now days_to_scrape fetchDescription all_jobs) config := by
  have hskip : ∀ j : Job, j.date = job.date →
      processJob strptimeDate now days_to_scrape fetchDescription j = ⟨none, 0⟩ := by
    intro j hdate
    unfold processJob
    rw [hdate]
    rcases h with hcase | hcase | ⟨d, hd, hlt⟩
    · rw [if_pos hcase]
    · split
      · rfl
      · rw [hcase]
    · split
      · rfl
      · rw [hd]
        simp [hlt]
  have hnot : job ∉ job_list strptimeDate now days_to_scrape fetchDescription all_jobs := by
    intro hmem
    unfold job_list at hmem
    rcases List.mem_filterMap.mp hmem with ⟨j, _, hkept⟩
    rw [hskip j (processJob_kept_date strptimeDate now days_to_scrape
      fetchDescription j job hkept).symm] at hkept
    simp at hkept
  refine ⟨hskip job rfl, hnot, ?_, ?_⟩
  · intro hmem
    unfold jobs_to_add at hmem
    exact hnot ((mem_remove_irrelevant_jobs detect _ config job).mp hmem).1
  · intro hmem
    unfold filtered_list at hmem
    exact hnot (List.mem_filter.mp hmem).1

def c8Job : Job := mkJob "Old Role" "Acme" "2026-09-27" "https://x/5" ""

def c8Strptime : String → Option Int :=
  fun s => if s = "2026-09-27" then some 20723 else none

/-- C8 witness: with `days_to_scrape = 10` and a card dated 15 days
before now, the loop iteration makes no detail fetch and the card is
absent from `job_list`. -/
theorem c8_witness :
    processJob c8Strptime (20738 * 86400) 10 (fun _ => "desc") c8Job = ⟨none, 0⟩ ∧
      c8Job ∉ job_list c8Strptime (20738 * 86400) 10 (fun _ => "desc") [c8Job] :=
  ⟨(c8_date_window c8Strptime (20738 * 86400) 10 (fun _ => "desc") (fun _ => "en")
      ⟨[], [], [], [], []⟩ [c8Job] c8Job
      (Or.inr (Or.inr ⟨20723, by decide, by decide⟩))).1,
    (c8_date_window c8Strptime (20738 * 86400) 10 (fun _ => "desc") (fun _ => "en")
      ⟨[], [], [], [], []⟩ [c8Job] c8Job
      (Or.inr (Or.inr ⟨20723, by decide, by decide⟩))).2.1⟩

/-- C9 counterexample: the output of `normalize_job` has no "saved"
key at all (even on the empty input dictionary), while the four flags
it does emit are defaulted — refuting the claim that the normalizer
defaults all five status flags (applied, saved, interview, rejected,
hidden) in its output. -/
theorem c9_counterexample :
    (normalize_job "linkedin" []).lookup "saved" = none ∧
      (normalize_job "linkedin" []).lookup "applied" = some (Val.i 0) := by
  constructor
  · decide
  · decide

/-- C9 (amended): the normalizer is a total pure function on raw card
dictionaries: every missing text field becomes the empty string, the
source tag is stamped, and the four status flags it emits (applied,
hidden, interview, rejected) default to 0 when missing; it emits no
"saved" flag. -/
theorem c9_normalize_job (source_name : String) (job : List (String × Val)) :
    (normalize_job source_name job).lookup "saved" = none ∧
    (normalize_job source_name job).lookup "source" = some (Val.s source_name) ∧
    (job.lookup "title" = none →
      (normalize_job source_name job).lookup "title" = some (Val.s "")) ∧
    (job.lookup "company" = none →
      (normalize_job source_name job).lookup "company" = some (Val.s "")) ∧
    (job.lookup "location" = none →
      (normalize_job source_name job).lookup "location" = some (Val.s "")) ∧
    (job.lookup "date" = none →
      (normalize_job source_name job).lookup "date" = some (Val.s "")) ∧
    (job.lookup "job_url" = none →
      (normalize_job source_name job).lookup "job_url" = some (Val.s "")) ∧
    (job.lookup "job_description" = none →
      (normalize_job source_name job).lookup "job_description" = some (Val.s "")) ∧
    (job.lookup "applied" = none →
      (normalize_job source_name job).lookup "applied" = some (Val.i 0)) ∧
    (job.lookup "hidden" = none →
      (normalize_job source_name job).lookup "hidden" = some (Val.i 0)) ∧
    (job.lookup "interview" = none →
      (normalize_job source_name job).lookup "interview" = some (Val.i 0)) ∧
    (job.lookup "rejected" = none →
      (normalize_job source_name job).lookup "rejected" = some (Val.i 0)) := by
  refine ⟨?_, ?_, ?_, ?_, ?_, ?_, ?_, ?_, ?_, ?_, ?_, ?_⟩ <;>
    first
      | rfl
      | (intro hmiss
         simp [normalize_job, dictGet, List.lookup, hmiss])

/-- C9 witness: the amended statement evaluated on the empty raw
dictionary. -/
theorem c9_witness :
    ([] : List (String × Val)).lookup "title" = none ∧
      (normalize_job "linkedin" ([] : List (String × Val))).lookup "title" =
        some (Val.s "") :=
  ⟨rfl, (c9_normalize_job "linkedin" []).2.2.1 rfl⟩

end LinkedinScraper
